import Mathlib

/-! # code-stats-atom: pulse aggregation and delivery

A shallow embedding of `lib/code-stats-atom.js`.  The module-level variables of the
script become the fields of `State`; every function of the script becomes a function
on `State`.  The host environment (the clock, pending timers, pending HTTP exchanges)
is carried in the same record, next to a few history fields that only record what
happened (`sealed`, `sent`, `fired`).

JavaScript strings are sequences of UTF-16 code units, so `JSString` is a list of
code units and `.length`, `.substr`, `.startsWith` and `===` are the list operations.
-/

namespace CodeStats

/-! ## Strings -/

/-- A JavaScript string: its UTF-16 code units. -/
abbrev JSString := List Nat

/-- UTF-16 code units of one Unicode scalar value. -/
def utf16Units (c : Nat) : List Nat :=
  if c < 0x10000 then [c]
  else [0xD800 + (c - 0x10000) / 0x400, 0xDC00 + (c - 0x10000) % 0x400]

/-- The JavaScript string written by a literal. -/
def js (s : String) : JSString :=
  s.toList.flatMap (fun c => utf16Units c.toNat)

/-- Decimal digits of a natural number, most significant first; `fuel` bounds the
number of digits. -/
def decimalAux : Nat → Nat → List Nat → List Nat
  | 0, _, acc => acc
  | fuel + 1, n, acc =>
    if n < 10 then (48 + n) :: acc
    else decimalAux fuel (n / 10) ((48 + n % 10) :: acc)

/-- The string a non-negative integer Number converts to (`String(n)`, template
literals, `JSON.stringify`): its decimal digits.  Counts are integer-valued Numbers
far below `10^21`, where JavaScript switches to exponent form. -/
def decimal (n : Nat) : JSString :=
  decimalAux (n + 1) n []

/-- `parseInt(x)` for an integer-valued Number `x` below `10^21`: the number itself. -/
def parseInt (n : Nat) : Nat := n

/-- Whether a code unit is a high (leading) surrogate. -/
def isHighSurrogate (u : Nat) : Bool := 0xD800 ≤ u && u < 0xDC00

/-- Whether a code unit is a low (trailing) surrogate. -/
def isLowSurrogate (u : Nat) : Bool := 0xDC00 ≤ u && u < 0xE000

/-- Number of bytes Node writes for a string in its default `utf8` encoding: one to
three bytes per code unit of the basic plane, four bytes per surrogate pair, and
the three bytes of U+FFFD for an unpaired surrogate. -/
def utf8ByteLength : JSString → Nat
  | [] => 0
  | [u] => if u < 0x80 then 1 else if u < 0x800 then 2 else 3
  | u :: v :: rest =>
    if u < 0x80 then 1 + utf8ByteLength (v :: rest)
    else if u < 0x800 then 2 + utf8ByteLength (v :: rest)
    else if isHighSurrogate u && isLowSurrogate v then 4 + utf8ByteLength rest
    else 3 + utf8ByteLength (v :: rest)

/-- One lowercase hexadecimal digit. -/
def hexDigit (n : Nat) : Nat := if n < 10 then 48 + n else 87 + n

/-- The six-unit escape `\uXXXX` of a code unit. -/
def unicodeEscape (u : Nat) : JSString :=
  [92, 117, hexDigit (u / 4096 % 16), hexDigit (u / 256 % 16), hexDigit (u / 16 % 16),
    hexDigit (u % 16)]

/-- Body of `QuoteJSONString`: the escapes `JSON.stringify` applies inside a string.
A surrogate pair is copied, an unpaired surrogate is escaped. -/
def jsonEscape : JSString → JSString
  | [] => []
  | [u] =>
    if u = 34 then [92, 34] else if u = 92 then [92, 92]
    else if u = 8 then [92, 98] else if u = 12 then [92, 102]
    else if u = 10 then [92, 110] else if u = 13 then [92, 114]
    else if u = 9 then [92, 116]
    else if u < 32 then unicodeEscape u
    else if isHighSurrogate u || isLowSurrogate u then unicodeEscape u
    else [u]
  | u :: v :: rest =>
    if u = 34 then [92, 34] ++ jsonEscape (v :: rest)
    else if u = 92 then [92, 92] ++ jsonEscape (v :: rest)
    else if u = 8 then [92, 98] ++ jsonEscape (v :: rest)
    else if u = 12 then [92, 102] ++ jsonEscape (v :: rest)
    else if u = 10 then [92, 110] ++ jsonEscape (v :: rest)
    else if u = 13 then [92, 114] ++ jsonEscape (v :: rest)
    else if u = 9 then [92, 116] ++ jsonEscape (v :: rest)
    else if u < 32 then unicodeEscape u ++ jsonEscape (v :: rest)
    else if isHighSurrogate u && isLowSurrogate v then u :: v :: jsonEscape rest
    else if isHighSurrogate u || isLowSurrogate u then unicodeEscape u ++ jsonEscape (v :: rest)
    else u :: jsonEscape (v :: rest)

/-- A string as `JSON.stringify` writes it: escaped, between double quotes. -/
def jsonQuote (s : JSString) : JSString :=
  [34] ++ jsonEscape s ++ [34]

/-! ## Data model -/

/-- An editor grammar object; the script only reads its `name`. -/
structure Grammar where
  name : JSString
  deriving DecidableEq, Repr

/-- A pulse.  `ref` is the identity of the JavaScript object (two pulses created by
two `new Pulse` calls are different objects even when their contents agree);
`xps` is the experience `Map` as its entries in insertion order. -/
structure Pulse where
  ref : Nat
  startedAt : Nat
  coded_at : Option Nat
  xps : List (Grammar × Nat)
  deriving DecidableEq, Repr

/-- Modelled from the spec: the `Pulse` constructor of `models.js`, which is not
among the sources.  "New pulse with empty experience mapping and `startedAt = now`";
the sealing time is absent while the pulse is open. -/
def Pulse.create (ref now : Nat) : Pulse :=
  { ref := ref, startedAt := now, coded_at := none, xps := [] }

/-- Modelled from the spec: the update of the experience mapping behind `Pulse.addXP`
of `models.js`.  "Increments `experience[category]` by `amount` (creating the entry at
`amount` if absent)"; an existing entry keeps its place, a new one goes last. -/
def mapAdd : List (Grammar × Nat) → Grammar → Nat → List (Grammar × Nat)
  | [], language, amount => [(language, amount)]
  | (g, n) :: rest, language, amount =>
    if g = language then (g, n + amount) :: rest
    else (g, n) :: mapAdd rest language amount

/-- Modelled from the spec: `Pulse.addXP` of `models.js`, which is not among the
sources.  "Increments `experience[category]` by `amount`". -/
def Pulse.addXP (p : Pulse) (language : Grammar) (amount : Nat) : Pulse :=
  { p with xps := mapAdd p.xps language amount }

/-- One element of the `xps` array of the wire payload. -/
structure XpEntry where
  language : JSString
  xp : Nat
  deriving DecidableEq, Repr

/-- The object `data` that `startUpdate` serialises. -/
structure Payload where
  coded_at : JSString
  xps : List XpEntry
  deriving DecidableEq, Repr

/-- A started HTTP exchange together with the promise stored in `update_promise`
for it.  `waiters` counts the callbacks registered on that promise by
`update_promise.then(...)`. -/
structure Request where
  id : Nat
  pulse : Pulse
  url : JSString
  apiToken : JSString
  userAgent : JSString
  contentLength : Nat
  data : Payload
  body : JSString
  waiters : Nat
  deriving DecidableEq, Repr

/-- Which `setTimeout` call created a timer: the one in `changeEvent`
(`UPDATE_DELAY`) or the one in `startUpdate` (`MULTIPLE_UPDATE_INTERVAL`).
Both call `startUpdate` when they fire. -/
inductive TimerKind where
  | debounce
  | repeatSend
  deriving DecidableEq, Repr

/-- A pending one-shot timer. -/
structure Timer where
  id : Nat
  due : Nat
  kind : TimerKind
  deriving DecidableEq, Repr

/-- A key event as the keymap reports it. -/
structure KeyEvent where
  eventType : JSString
  keystrokes : JSString
  deriving DecidableEq, Repr

/-- What can happen to a started request: the events `response`, `timeout` and
`error` of a Node `ClientRequest`. -/
inductive Outcome where
  | response (statusCode : Nat)
  | timeout
  | error
  deriving DecidableEq, Repr

/-- Parts of the package that are not in `lib/code-stats-atom.js`. -/
structure Host where
  /-- Default export of `utils.js`, applied to the value of `coded_at`. -/
  getISOTimestamp : Option Nat → JSString
  /-- The `version` of `package.json`. -/
  PACKAGE_VERSION : JSString
  /-- Whether `new URL(UPDATE_URL)` and `executor.request(...)` complete without
  throwing for this URL and API key. -/
  canRequest : JSString → JSString → Bool

/-- The module-level variables, the host environment and the history. -/
structure State where
  /-- The API key: `null` or a string (the setting is of type string). -/
  API_KEY : Option JSString
  /-- The update URL: `null` or a string (the setting is of type string). -/
  UPDATE_URL : Option JSString
  old_pulses : List Pulse
  current_pulse : Option Pulse
  update_timeout : Option Nat
  update_promise : Option Nat
  update_waiting : Bool
  /-- The `textContent` of the status bar tile, when there is a tile. -/
  status_bar_tile : Option JSString
  /-- The implicit global `total_xps`; absent until first assigned. -/
  total_xps : Option Nat
  /-- Clock in milliseconds (`new Date()`). -/
  now : Nat
  /-- Pending timers, oldest first. -/
  timers : List Timer
  next_timer : Nat
  /-- Requests that were started and have not settled, oldest first. -/
  requests : List Request
  next_promise : Nat
  next_pulse : Nat
  /-- History: pulses in the order they were sealed. -/
  sealed : List Pulse
  /-- History: pulses in the order their requests were started. -/
  sent : List Pulse
  /-- History: timers that fired, with the time at which they fired. -/
  fired : List (Timer × Nat)
  deriving DecidableEq, Repr

/-- Amount of milliseconds to wait after typing before sending update. -/
def UPDATE_DELAY : Nat := 10000

/-- Interval between sending multiple old pulses. -/
def MULTIPLE_UPDATE_INTERVAL : Nat := 10000

/-- The variables as the script initialises them, with the clock at `now`. -/
def State.init (now : Nat) : State :=
  { API_KEY := none, UPDATE_URL := none, old_pulses := [], current_pulse := none,
    update_timeout := none, update_promise := none, update_waiting := false,
    status_bar_tile := none, total_xps := none, now := now, timers := [],
    next_timer := 0, requests := [], next_promise := 0, next_pulse := 0,
    sealed := [], sent := [], fired := [] }

/-! ## Functions of the script -/

/-- The function `updateStatusBar(text = null)`. -/
def updateStatusBar (text : Option JSString) (s : State) : State :=
  let status_text := js "C::S" ++ (match text with
    | none => []
    | some t => js " " ++ t)
  match s.status_bar_tile with
  | none => s
  | some _ => { s with status_bar_tile := some status_text }

/-- The function `convertGrammar(grammar)`. -/
def convertGrammar (grammar : Grammar) : JSString :=
  if grammar.name = js "Null Grammar" then js "Plain text" else grammar.name

/-- The array `xps` of `startUpdate`: `Array.from(update_pulse.xps).reduce(...)`,
pushing one object per entry onto the accumulator. -/
def buildXps (xps : List (Grammar × Nat)) : List XpEntry :=
  xps.foldl (fun acc val => acc ++ [{ language := convertGrammar val.1, xp := val.2 }]) []

/-- The object `data` of `startUpdate`. -/
def buildData (h : Host) (update_pulse : Pulse) : Payload :=
  { coded_at := h.getISOTimestamp update_pulse.coded_at, xps := buildXps update_pulse.xps }

/-- One element of `xps` as `JSON.stringify` writes it. -/
def stringifyEntry (e : XpEntry) : JSString :=
  js "\x7b\"language\":" ++ jsonQuote e.language ++ js ",\"xp\":" ++ decimal e.xp ++ js "\x7d"

/-- The elements of an array, separated by commas. -/
def stringifyEntries : List XpEntry → JSString
  | [] => []
  | [e] => stringifyEntry e
  | e :: rest => stringifyEntry e ++ js "," ++ stringifyEntries rest

/-- The string `JSON.stringify(data)`. -/
def stringify (data : Payload) : JSString :=
  js "\x7b\"coded_at\":" ++ jsonQuote data.coded_at ++ js ",\"xps\":[" ++
    stringifyEntries data.xps ++ js "]\x7d"

/-- The value `total_xps` that `changeEvent` and the response handler compute: a
loop over `old_pulses` and, inside it, over the entries of each pulse, then a loop
over the entries of `current_pulse` when there is one, each adding
`parseInt(pair[1])`. -/
def computeTotalXps (s : State) : Nat :=
  let total_xps := 0
  let total_xps := s.old_pulses.foldl
    (fun acc pulse => pulse.xps.foldl (fun acc pair => acc + parseInt pair.2) acc) total_xps
  match s.current_pulse with
  | none => total_xps
  | some pulse => pulse.xps.foldl (fun acc pair => acc + parseInt pair.2) total_xps

/-- The statement `update_promise.then(() => ...)`: one more callback on the
promise `update_promise` holds.  A promise with no pending request behind it was
rejected when it was created, and a rejected promise never runs the callback. -/
def addWaiter (promise : Option Nat) (requests : List Request) : List Request :=
  requests.map (fun r => if some r.id = promise then { r with waiters := r.waiters + 1 } else r)

/-- Lines 76-80 of `startUpdate`: a current pulse gets its timestamp and moves to
the end of `old_pulses`. -/
def sealCurrent (s : State) : State :=
  match s.current_pulse with
  | none => s
  | some pulse =>
    let pulse := { pulse with coded_at := some s.now }
    { s with old_pulses := s.old_pulses ++ [pulse], current_pulse := none,
             sealed := s.sealed ++ [pulse] }

/-- The request `startUpdate` creates for `update_pulse`; `id` names the promise. -/
def makeRequest (h : Host) (s : State) (update_pulse : Pulse) : Request :=
  let data := buildData h update_pulse
  let JSONData := stringify data
  { id := s.next_promise, pulse := update_pulse, url := s.UPDATE_URL.getD [],
    apiToken := s.API_KEY.getD [],
    userAgent := js "code-stats-atom/" ++ h.PACKAGE_VERSION,
    contentLength := JSONData.length, data := data, body := JSONData, waiters := 0 }

/-- The function `startUpdate()`. -/
def startUpdate (h : Host) (s : State) : State :=
  if s.API_KEY = none ∨ s.API_KEY = some [] ∨ s.UPDATE_URL = none ∨ s.UPDATE_URL = some [] then s
  else if s.update_promise ≠ none ∧ s.update_waiting = false then
    { s with update_waiting := true, requests := addWaiter s.update_promise s.requests }
  else
    let s := sealCurrent s
    match s.old_pulses with
    | [] => s
    | update_pulse :: rest =>
      let started := h.canRequest (s.UPDATE_URL.getD []) (s.API_KEY.getD [])
      { s with
        old_pulses := rest
        requests := if started then s.requests ++ [makeRequest h s update_pulse] else s.requests
        sent := if started then s.sent ++ [update_pulse] else s.sent
        update_promise := some s.next_promise
        next_promise := s.next_promise + 1
        timers := s.timers ++
          [{ id := s.next_timer, due := s.now + MULTIPLE_UPDATE_INTERVAL, kind := .repeatSend }]
        next_timer := s.next_timer + 1 }

/-- The callbacks registered by line 68, run one after the other when the promise
is fulfilled: `update_waiting = false; startUpdate();`. -/
def runWaiters (h : Host) : Nat → State → State
  | 0, s => s
  | n + 1, s => runWaiters h n (startUpdate h { s with update_waiting := false })

/-- The call `resolve()` for request `r` and what follows from it: the exchange is
over, the callback of line 173 sets `update_promise = null`, then the promise is
fulfilled and its waiting callbacks run. -/
def resolve (h : Host) (r : Request) (s : State) : State :=
  runWaiters h r.waiters
    { s with requests := s.requests.filter (fun q => q.id ≠ r.id), update_promise := none }

/-- The listeners `startUpdate` attaches to its request, lines 130-167: one for
`response` and one for `timeout`.  There is no listener for `error`. -/
def requestEvent (h : Host) (id : Nat) (o : Outcome) (s : State) : State :=
  match s.requests.find? (fun r => r.id = id) with
  | none => s
  | some r =>
    match o with
    | .response statusCode =>
      if statusCode ≠ 201 then
        resolve h r (updateStatusBar (some (js "ERR " ++ decimal statusCode ++ js "!")) s)
      else
        let total_xps := computeTotalXps s
        resolve h r (updateStatusBar (some (decimal total_xps)) { s with total_xps := some total_xps })
    | .timeout => resolve h r (updateStatusBar (some (js "X_X")) s)
    | .error => s

/-- The function `getOrCreatePulse()`: the state afterwards; the pulse it returns
is the current pulse of that state. -/
def getOrCreatePulse (s : State) : State :=
  match s.current_pulse with
  | some _ => s
  | none =>
    { s with current_pulse := some (Pulse.create s.next_pulse s.now),
             next_pulse := s.next_pulse + 1 }

/-- The function `addXP(language, xp)`. -/
def addXP (language : Grammar) (xp : Nat) (s : State) : State :=
  let s := getOrCreatePulse s
  { s with current_pulse := s.current_pulse.map (fun pulse => pulse.addXP language xp) }

/-- The call `clearTimeout(handle)`. -/
def clearTimeout (handle : Nat) (s : State) : State :=
  { s with timers := s.timers.filter (fun t => t.id ≠ handle) }

/-- The condition of the `if` at lines 205-216 on `keystrokes`. -/
def acceptedKeystrokes (keystrokes : JSString) : Bool :=
  keystrokes.length = 1
  || ((js "shift-").isPrefixOf keystrokes && keystrokes.length = 7)
  || keystrokes = js "space"
  || keystrokes = js "backspace"
  || keystrokes = js "enter"
  || keystrokes = js "tab"
  || keystrokes = js "delete"

/-- Lines 227-255 of `changeEvent`: one unit of experience is added for `grammar`,
a pending timer is cleared, the total is shown, and a new timer is set. -/
def recordKeystroke (grammar : Grammar) (s : State) : State :=
  let s := addXP grammar 1 s
  let s := match s.update_timeout with
    | none => s
    | some handle => clearTimeout handle s
  let total_xps := computeTotalXps s
  let s := updateStatusBar (some (decimal total_xps)) { s with total_xps := some total_xps }
  { s with
    timers := s.timers ++ [{ id := s.next_timer, due := s.now + UPDATE_DELAY, kind := .debounce }]
    update_timeout := some s.next_timer
    next_timer := s.next_timer + 1 }

/-- The function `changeEvent(e)`; `editor` is the grammar of
`atom.workspace.getActiveTextEditor()`, absent when there is no active editor. -/
def changeEvent (e : KeyEvent) (editor : Option Grammar) (s : State) : State :=
  if e.eventType ≠ js "keyup" then s
  else
    let keystrokes := e.keystrokes.drop 1
    if acceptedKeystrokes keystrokes then
      match editor with
      | none => s
      | some grammar => recordKeystroke grammar s
    else s

/-- The method `activate`: the settings are read into `API_KEY` and `UPDATE_URL`. -/
def activate (apiKey apiUrl : Option JSString) (s : State) : State :=
  { s with API_KEY := apiKey, UPDATE_URL := apiUrl }

/-- The callback of `atom.config.onDidChange('code-stats-atom.apiKey', ...)`. -/
def didChangeApiKey (newValue : Option JSString) (s : State) : State :=
  { s with API_KEY := newValue }

/-- The callback of `atom.config.onDidChange('code-stats-atom.apiUrl', ...)`. -/
def didChangeApiUrl (newValue : Option JSString) (s : State) : State :=
  { s with UPDATE_URL := newValue }

/-- The method `consumeStatusBar`: a tile is added and shows the bare label. -/
def consumeStatusBar (s : State) : State :=
  updateStatusBar none { s with status_bar_tile := some [] }

/-! ## The host: timers and events -/

/-- A pending timer fires: it leaves the pending list and its callback
`startUpdate` runs. -/
def fireTimer (h : Host) (t : Timer) (s : State) : State :=
  if t ∈ s.timers then
    startUpdate h { s with timers := s.timers.filter (fun u => u ≠ t),
                           fired := s.fired ++ [(t, s.now)] }
  else s

/-- Every timer that is due fires, oldest first. -/
def fireDue (h : Host) (s : State) : State :=
  (s.timers.filter (fun t => t.due ≤ s.now)).foldl (fun acc t => fireTimer h t acc) s

/-- One millisecond passes. -/
def tick (h : Host) (s : State) : State :=
  fireDue h { s with now := s.now + 1 }

/-- The clock advances by `ms` milliseconds. -/
def advance (h : Host) : Nat → State → State
  | 0, s => s
  | ms + 1, s => advance h ms (tick h s)

/-- What the script can be asked to do between two states. -/
inductive Event where
  /-- The keymap reports a key event; `editor` is the active editor's grammar. -/
  | key (e : KeyEvent) (editor : Option Grammar)
  /-- A call of `startUpdate`. -/
  | flush
  /-- One millisecond passes and the timers that are due fire. -/
  | tick
  /-- A started request reports an outcome. -/
  | settle (id : Nat) (o : Outcome)
  deriving DecidableEq, Repr

/-- One event. -/
def step (h : Host) (s : State) : Event → State
  | .key e editor => changeEvent e editor s
  | .flush => startUpdate h s
  | .tick => tick h s
  | .settle id o => requestEvent h id o s

/-- A sequence of events, first to last. -/
def run (h : Host) (s : State) (events : List Event) : State :=
  events.foldl (step h) s

/-! ## The specification's wording -/

/-- The event filter as the specification words it: a key-release event whose
keystroke description, without its leading marker, is a single character, or
`shift-` followed by exactly one character, or one of the five named keys.  A
character is one UTF-16 code unit, the unit in which `length` counts. -/
def Admits (e : KeyEvent) : Prop :=
  e.eventType = js "keyup" ∧
    ((∃ c, e.keystrokes.drop 1 = [c])
      ∨ (∃ c, e.keystrokes.drop 1 = js "shift-" ++ [c])
      ∨ e.keystrokes.drop 1 ∈ [js "space", js "backspace", js "enter", js "tab", js "delete"])

/-- The specification's `totalExperience(pulse)`: the sum of all values in the
experience mapping. -/
def totalExperience (p : Pulse) : Nat :=
  (p.xps.map (fun entry => entry.2)).sum

/-- The display total as the specification words it: the sum of experience across
the queue plus the current open pulse, if any. -/
def displayTotal (s : State) : Nat :=
  (s.old_pulses.map totalExperience).sum + (s.current_pulse.map totalExperience).getD 0

/-- The wire payload as the specification words it: the ISO timestamp of the
sealing time, and one `language`/`xp` object per entry of the experience, where the
grammar name `Null Grammar` is replaced by `Plain text`. -/
def specPayload (h : Host) (p : Pulse) : Payload :=
  { coded_at := h.getISOTimestamp p.coded_at
    xps := p.xps.map (fun entry =>
      { language := if entry.1.name = js "Null Grammar" then js "Plain text" else entry.1.name
        xp := entry.2 }) }

/-- The API key or the update URL is unset: `null` or the empty string. -/
def Unconfigured (s : State) : Prop :=
  s.API_KEY = none ∨ s.API_KEY = some (js "") ∨ s.UPDATE_URL = none ∨ s.UPDATE_URL = some (js "")

/-- Nothing was put back: every pulse queued in `t` was already queued in `s` or
is the current pulse of `s` sealed at the time of `s`; the clock did not move and
the current pulse is the one of `s` or gone. -/
def NoRequeue (s t : State) : Prop :=
  t.now = s.now
    ∧ (t.current_pulse = s.current_pulse ∨ t.current_pulse = none)
    ∧ ∀ q ∈ t.old_pulses,
        q ∈ s.old_pulses ∨ ∃ c, s.current_pulse = some c ∧ q = { c with coded_at := some s.now }

/-- Whether a request can be started under the configuration of `s`. -/
def canSend (h : Host) (s : State) : Bool :=
  h.canRequest (s.UPDATE_URL.getD []) (s.API_KEY.getD [])

/-- The invariant behind first-in first-out delivery.  When requests can be
started, the pulses sealed so far are the pulses sent so far followed by the
queue; when they cannot, nothing was sent.  Pulse objects sealed so far are
pairwise distinct, and distinct from the open pulse. -/
def FifoInv (h : Host) (s : State) : Prop :=
  (canSend h s = true → s.sealed = s.sent ++ s.old_pulses)
    ∧ (canSend h s = false → s.sent = [])
    ∧ (s.sealed.map Pulse.ref).Nodup
    ∧ (∀ p ∈ s.sealed, p.ref < s.next_pulse)
    ∧ (∀ c, s.current_pulse = some c → c.ref < s.next_pulse ∧ c.ref ∉ s.sealed.map Pulse.ref)

/-- Whether a timer was set by `changeEvent`. -/
def Timer.isDebounce (t : Timer) : Bool := decide (t.kind = .debounce)

/-- The pending timers set by `changeEvent`. -/
def debounceTimers (s : State) : List Timer :=
  s.timers.filter Timer.isDebounce

/-- The history of firings of timers set by `changeEvent`. -/
def debounceFired (s : State) : List (Timer × Nat) :=
  s.fired.filter (fun x => x.1.isDebounce)

/-- Every pending timer set by `changeEvent` is the one `update_timeout` holds. -/
def DebounceInv (s : State) : Prop :=
  ∀ t ∈ s.timers, t.isDebounce = true → s.update_timeout = some t.id

/-- The debounce side of `t` is that of `s`: same pending debounce timers, same
debounce firings, same `update_timeout`, same clock. -/
def SameDebounce (s t : State) : Prop :=
  debounceTimers t = debounceTimers s
    ∧ debounceFired t = debounceFired s
    ∧ t.update_timeout = s.update_timeout
    ∧ t.now = s.now

/-- A burst of typing: each key event arrives `gap` milliseconds after the
previous one, with an active editor of the given grammar. -/
def typeKeys (h : Host) (s : State) : List (Nat × KeyEvent × Grammar) → State
  | [] => s
  | (gap, e, g) :: rest => typeKeys h (changeEvent e (some g) (advance h gap s)) rest

/-! ## Examples -/

/-- A host for the examples: timestamps are written as the decimal milliseconds
(`"-"` for an absent value), every URL can be requested. -/
def demoHost : Host :=
  { getISOTimestamp := fun d => match d with
      | none => js "-"
      | some t => decimal t
    PACKAGE_VERSION := js "1.0.0"
    canRequest := fun _ _ => true }

/-- The start of the examples: activated with an API key and a URL, a status bar
tile present. -/
def demoStart : State :=
  consumeStatusBar (activate (some (js "key")) (some (js "https://codestats.net/api/my/pulses"))
    (State.init 0))

/-- The key event of releasing `a`. -/
def keyA : KeyEvent := { eventType := js "keyup", keystrokes := js "^a" }

/-- The grammar used in the examples. -/
def javaScript : Grammar := { name := js "JavaScript" }

/-- An example state in which the API key is the empty string while a pulse is
open and another one is queued. -/
def gatedDemo : State :=
  { demoStart with
    API_KEY := some (js "")
    current_pulse := some { ref := 1, startedAt := 5, coded_at := none, xps := [(javaScript, 2)] }
    old_pulses := [{ ref := 0, startedAt := 0, coded_at := some 3, xps := [(javaScript, 1)] }]
    next_pulse := 2 }

/-- An example state with the open pulse of the specification's payload example:
three units of JavaScript and one unit under the null grammar. -/
def payloadDemo : State :=
  { demoStart with
    now := 1672531200000
    current_pulse := some { ref := 0, startedAt := 1672531190000, coded_at := none,
                            xps := [(javaScript, 3), ({ name := js "Null Grammar" }, 1)] }
    next_pulse := 1 }

/-- An example state with one request in flight: one key was released and
`startUpdate` ran. -/
def sentDemo : State :=
  run demoHost demoStart [.key keyA (some javaScript), .flush]

/-- A key event the filter rejects: releasing `ctrl-x`. -/
def keyCtrlX : KeyEvent := { eventType := js "keyup", keystrokes := js "^ctrl-x" }

/-- The pulse of the specification's payload example once sealed. -/
def payloadPulse : Pulse :=
  { ref := 0, startedAt := 1672531190000, coded_at := some 1672531200000,
    xps := [(javaScript, 3), ({ name := js "Null Grammar" }, 1)] }

/-- An example state: French text was typed, under a grammar whose name has a
letter outside ASCII. -/
def accentDemo : State :=
  changeEvent keyA (some { name := js "Français" }) demoStart

/-- An example burst after a first key: two more keys, 3000 ms and 9999 ms after
the one before. -/
def demoBurst : List (Nat × KeyEvent × Grammar) :=
  [(3000, keyA, javaScript), (9999, keyA, javaScript)]

/-! ## Lemmas -/

theorem js_empty : js "" = [] := by decide

theorem foldl_push_eq_map {α β : Type} (f : α → β) (l : List α) (init : List β) :
    l.foldl (fun acc val => acc ++ [f val]) init = init ++ l.map f := by
  induction l generalizing init with
  | nil => simp
  | cons a l ih => simp [ih]

theorem buildXps_eq_map (xps : List (Grammar × Nat)) :
    buildXps xps = xps.map (fun val => { language := convertGrammar val.1, xp := val.2 }) := by
  unfold buildXps
  rw [foldl_push_eq_map (fun val : Grammar × Nat =>
    ({ language := convertGrammar val.1, xp := val.2 } : XpEntry))]
  simp

theorem buildData_eq_specPayload (h : Host) (p : Pulse) : buildData h p = specPayload h p := by
  simp [buildData, specPayload, buildXps_eq_map, convertGrammar]

theorem foldl_entries (xps : List (Grammar × Nat)) (init : Nat) :
    xps.foldl (fun acc pair => acc + parseInt pair.2) init
      = init + (xps.map (fun entry => entry.2)).sum := by
  induction xps generalizing init with
  | nil => simp
  | cons a l ih =>
    rw [List.foldl_cons, ih]
    simp [parseInt, Nat.add_assoc]

theorem foldl_pulses (ps : List Pulse) (init : Nat) :
    ps.foldl (fun acc pulse => pulse.xps.foldl (fun acc pair => acc + parseInt pair.2) acc) init
      = init + (ps.map totalExperience).sum := by
  induction ps generalizing init with
  | nil => simp
  | cons a l ih =>
    rw [List.foldl_cons, ih, foldl_entries]
    simp [totalExperience, Nat.add_assoc]

theorem computeTotalXps_eq (s : State) : computeTotalXps s = displayTotal s := by
  unfold computeTotalXps displayTotal
  cases hc : s.current_pulse with
  | none =>
    show List.foldl _ 0 s.old_pulses = _
    rw [foldl_pulses]; simp
  | some p =>
    show List.foldl _ (List.foldl _ 0 s.old_pulses) p.xps = _
    rw [foldl_entries, foldl_pulses]; simp [totalExperience]

theorem startUpdate_unconfigured (h : Host) (s : State) (hg : Unconfigured s) :
    startUpdate h s = s := by
  unfold Unconfigured at hg
  rw [js_empty] at hg
  unfold startUpdate
  rw [if_pos hg]

theorem acceptedKeystrokes_iff (k : JSString) :
    acceptedKeystrokes k = true ↔
      ((∃ c, k = [c]) ∨ (∃ c, k = js "shift-" ++ [c])
        ∨ k ∈ [js "space", js "backspace", js "enter", js "tab", js "delete"]) := by
  have hshift : js "shift-" = [115, 104, 105, 102, 116, 45] := by decide
  have hpre : ((js "shift-").isPrefixOf k = true ∧ k.length = 7) ↔ ∃ c, k = js "shift-" ++ [c] := by
    constructor
    · rintro ⟨h1, h2⟩
      rw [List.isPrefixOf_iff_prefix] at h1
      obtain ⟨t, rfl⟩ := h1
      rw [hshift] at h2
      simp at h2
      match t, h2 with
      | [c], _ => exact ⟨c, rfl⟩
    · rintro ⟨c, rfl⟩
      constructor
      · rw [List.isPrefixOf_iff_prefix]; exact List.prefix_append _ _
      · rw [hshift]; rfl
  have hone : k.length = 1 ↔ ∃ c, k = [c] := List.length_eq_one
  unfold acceptedKeystrokes
  simp only [Bool.or_eq_true, Bool.and_eq_true, decide_eq_true_eq, hpre, hone,
    List.mem_cons, List.mem_singleton, List.not_mem_nil, or_false, or_assoc]

theorem mapAdd_sum (xps : List (Grammar × Nat)) (g : Grammar) (n : Nat) :
    ((mapAdd xps g n).map (fun entry => entry.2)).sum
      = (xps.map (fun entry => entry.2)).sum + n := by
  induction xps with
  | nil => simp [mapAdd]
  | cons a l ih =>
    obtain ⟨g0, n0⟩ := a
    unfold mapAdd
    split
    · simp; omega
    · simp [ih]; omega

/-- What `startUpdate` leaves alone in every branch. -/
theorem startUpdate_frame (h : Host) (s : State) :
    (startUpdate h s).status_bar_tile = s.status_bar_tile
      ∧ (startUpdate h s).total_xps = s.total_xps
      ∧ (startUpdate h s).now = s.now
      ∧ (startUpdate h s).update_timeout = s.update_timeout
      ∧ (startUpdate h s).fired = s.fired
      ∧ (startUpdate h s).API_KEY = s.API_KEY
      ∧ (startUpdate h s).UPDATE_URL = s.UPDATE_URL := by
  unfold startUpdate
  split_ifs
  · simp
  · simp
  · cases hc : s.current_pulse <;> simp only [sealCurrent, hc] <;> split <;> simp

theorem runWaiters_frame (h : Host) (n : Nat) (s : State) :
    (runWaiters h n s).status_bar_tile = s.status_bar_tile
      ∧ (runWaiters h n s).total_xps = s.total_xps
      ∧ (runWaiters h n s).now = s.now
      ∧ (runWaiters h n s).update_timeout = s.update_timeout
      ∧ (runWaiters h n s).fired = s.fired
      ∧ (runWaiters h n s).API_KEY = s.API_KEY
      ∧ (runWaiters h n s).UPDATE_URL = s.UPDATE_URL := by
  induction n generalizing s with
  | zero => simp [runWaiters]
  | succ n ih =>
    have h1 := ih (startUpdate h { s with update_waiting := false })
    have h2 := startUpdate_frame h { s with update_waiting := false }
    simp only [runWaiters]
    obtain ⟨a1, a2, a3, a4, a5, a6, a7⟩ := h1
    obtain ⟨b1, b2, b3, b4, b5, b6, b7⟩ := h2
    exact ⟨a1.trans b1, a2.trans b2, a3.trans b3, a4.trans b4, a5.trans b5, a6.trans b6,
      a7.trans b7⟩

theorem resolve_frame (h : Host) (r : Request) (s : State) :
    (resolve h r s).status_bar_tile = s.status_bar_tile
      ∧ (resolve h r s).total_xps = s.total_xps
      ∧ (resolve h r s).now = s.now
      ∧ (resolve h r s).update_timeout = s.update_timeout
      ∧ (resolve h r s).fired = s.fired
      ∧ (resolve h r s).API_KEY = s.API_KEY
      ∧ (resolve h r s).UPDATE_URL = s.UPDATE_URL := by
  unfold resolve
  exact runWaiters_frame h r.waiters _

theorem updateStatusBar_tile (text : JSString) (s : State) :
    (updateStatusBar (some text) s).status_bar_tile
      = s.status_bar_tile.map (fun _ => js "C::S " ++ text) := by
  have hl : js "C::S" ++ js " " = js "C::S " := by decide
  unfold updateStatusBar
  cases ht : s.status_bar_tile with
  | none => simp [ht]
  | some t => simp [← hl]

theorem updateStatusBar_total (text : Option JSString) (s : State) :
    (updateStatusBar text s).total_xps = s.total_xps := by
  unfold updateStatusBar
  cases s.status_bar_tile <;> simp

theorem displayTotal_addXP (g : Grammar) (s : State) :
    displayTotal (addXP g 1 s) = displayTotal s + 1 := by
  unfold addXP getOrCreatePulse displayTotal
  cases hc : s.current_pulse with
  | none => simp [Pulse.addXP, Pulse.create, totalExperience, mapAdd]
  | some p => simp [hc, Pulse.addXP, totalExperience, mapAdd_sum, Nat.add_assoc]

theorem displayTotal_congr (s t : State) (h1 : t.old_pulses = s.old_pulses)
    (h2 : t.current_pulse = s.current_pulse) : displayTotal t = displayTotal s := by
  unfold displayTotal
  rw [h1, h2]

theorem changeEvent_of_not_accepted (e : KeyEvent) (editor : Option Grammar) (s : State)
    (hn : ¬ (e.eventType = js "keyup" ∧ acceptedKeystrokes (e.keystrokes.drop 1) = true)) :
    changeEvent e editor s = s := by
  unfold changeEvent
  by_cases h1 : e.eventType = js "keyup"
  · have h2 : ¬ acceptedKeystrokes (e.keystrokes.drop 1) = true := fun hacc => hn ⟨h1, hacc⟩
    rw [if_neg (not_not.2 h1)]
    simp only [h2]
    rfl
  · rw [if_pos h1]

theorem changeEvent_no_editor (e : KeyEvent) (s : State) : changeEvent e none s = s := by
  unfold changeEvent
  simp only []
  split_ifs <;> rfl

theorem changeEvent_recorded (e : KeyEvent) (g : Grammar) (s : State)
    (h1 : e.eventType = js "keyup") (h2 : acceptedKeystrokes (e.keystrokes.drop 1) = true) :
    changeEvent e (some g) s = recordKeystroke g s := by
  unfold changeEvent
  rw [if_neg (not_not.2 h1)]
  simp only [h2, if_true]

theorem updateStatusBar_eq (text : Option JSString) (s : State) :
    updateStatusBar text s
      = { s with status_bar_tile := s.status_bar_tile.map (fun _ =>
          js "C::S" ++ (match text with
            | none => []
            | some t => js " " ++ t)) } := by
  unfold updateStatusBar
  cases ht : s.status_bar_tile with
  | none => cases s; simp_all
  | some t => simp

/-- The state after lines 227-255, field by field. -/
theorem recordKeystroke_eq (g : Grammar) (s : State) :
    recordKeystroke g s
      = { addXP g 1 s with
          timers := (match (addXP g 1 s).update_timeout with
              | none => (addXP g 1 s).timers
              | some handle => (addXP g 1 s).timers.filter (fun t => t.id ≠ handle))
            ++ [{ id := (addXP g 1 s).next_timer, due := (addXP g 1 s).now + UPDATE_DELAY,
                  kind := .debounce }]
          update_timeout := some (addXP g 1 s).next_timer
          next_timer := (addXP g 1 s).next_timer + 1
          total_xps := some (displayTotal (addXP g 1 s))
          status_bar_tile := (addXP g 1 s).status_bar_tile.map (fun _ =>
            js "C::S " ++ decimal (displayTotal (addXP g 1 s))) } := by
  have hl : js "C::S" ++ js " " = js "C::S " := by decide
  unfold recordKeystroke
  simp only [updateStatusBar_eq, clearTimeout]
  cases hto : (addXP g 1 s).update_timeout with
  | none => simp only [computeTotalXps_eq, displayTotal, ← hl, List.append_assoc]
  | some handle => simp only [computeTotalXps_eq, displayTotal, ← hl, List.append_assoc]

theorem recordKeystroke_pulses (g : Grammar) (s : State) :
    (recordKeystroke g s).old_pulses = (addXP g 1 s).old_pulses
      ∧ (recordKeystroke g s).current_pulse = (addXP g 1 s).current_pulse := by
  rw [recordKeystroke_eq]
  exact ⟨rfl, rfl⟩

theorem find_pending (s : State) (id : Nat) (hpending : ∃ r ∈ s.requests, r.id = id) :
    ∃ r, s.requests.find? (fun r => r.id = id) = some r := by
  obtain ⟨r, hr, hid⟩ := hpending
  cases hf : s.requests.find? (fun r => r.id = id) with
  | some q => exact ⟨q, rfl⟩
  | none =>
    rw [List.find?_eq_none] at hf
    exact absurd (by simpa using hid) (hf r hr)

theorem noRequeue_refl (s : State) : NoRequeue s s :=
  ⟨rfl, Or.inl rfl, fun _ hq => Or.inl hq⟩

theorem noRequeue_trans {s t u : State} (h1 : NoRequeue s t) (h2 : NoRequeue t u) :
    NoRequeue s u := by
  obtain ⟨a1, a2, a3⟩ := h1
  obtain ⟨b1, b2, b3⟩ := h2
  refine ⟨b1.trans a1, ?_, ?_⟩
  · rcases b2 with hb | hb
    · rw [hb]; exact a2
    · exact Or.inr hb
  · intro q hq
    rcases b3 q hq with hb | ⟨c, hc, hqc⟩
    · exact a3 q hb
    · rcases a2 with ha | ha
      · exact Or.inr ⟨c, ha ▸ hc, by rw [hqc, a1]⟩
      · rw [ha] at hc; cases hc

theorem noRequeue_of_eq {s t : State} (h1 : t.now = s.now)
    (h2 : t.current_pulse = s.current_pulse) (h3 : t.old_pulses = s.old_pulses) :
    NoRequeue s t :=
  ⟨h1, Or.inl h2, fun _ hq => Or.inl (h3 ▸ hq)⟩

theorem sealCurrent_noRequeue (s : State) : NoRequeue s (sealCurrent s) := by
  unfold sealCurrent
  cases hc : s.current_pulse with
  | none => exact noRequeue_refl s
  | some c =>
    refine ⟨rfl, Or.inr rfl, ?_⟩
    intro q hq
    simp only [List.mem_append, List.mem_singleton] at hq
    rcases hq with hq | hq
    · exact Or.inl hq
    · exact Or.inr ⟨c, hc, hq⟩

theorem startUpdate_noRequeue (h : Host) (s : State) : NoRequeue s (startUpdate h s) := by
  unfold startUpdate
  split_ifs
  · exact noRequeue_refl s
  · exact noRequeue_of_eq rfl rfl rfl
  · have hs := sealCurrent_noRequeue s
    simp only []
    split
    · exact hs
    · rename_i p rest hq
      refine noRequeue_trans hs ⟨rfl, Or.inl rfl, ?_⟩
      intro q hq2
      left
      rw [hq]
      exact List.mem_cons_of_mem _ hq2

theorem runWaiters_noRequeue (h : Host) (n : Nat) (s : State) :
    NoRequeue s (runWaiters h n s) := by
  induction n generalizing s with
  | zero => exact noRequeue_refl s
  | succ n ih =>
    simp only [runWaiters]
    have h1 : NoRequeue s { s with update_waiting := false } := noRequeue_of_eq rfl rfl rfl
    exact noRequeue_trans (noRequeue_trans h1 (startUpdate_noRequeue h _)) (ih _)

theorem resolve_noRequeue (h : Host) (r : Request) (s : State) :
    NoRequeue s (resolve h r s) := by
  unfold resolve
  have h1 : NoRequeue s { s with requests := s.requests.filter (fun q => q.id ≠ r.id),
                                 update_promise := none } := noRequeue_of_eq rfl rfl rfl
  exact noRequeue_trans h1 (runWaiters_noRequeue h _ _)

theorem requestEvent_noRequeue (h : Host) (id : Nat) (o : Outcome) (s : State) :
    NoRequeue s (requestEvent h id o s) := by
  unfold requestEvent
  split
  · exact noRequeue_refl s
  · rename_i r hr
    cases o with
    | response code =>
      simp only [updateStatusBar_eq]
      split_ifs
      · exact noRequeue_trans (noRequeue_of_eq rfl rfl rfl) (resolve_noRequeue h r _)
      · exact noRequeue_trans (noRequeue_of_eq rfl rfl rfl) (resolve_noRequeue h r _)
    | timeout =>
      simp only [updateStatusBar_eq]
      exact noRequeue_trans (noRequeue_of_eq rfl rfl rfl) (resolve_noRequeue h r _)
    | error => exact noRequeue_refl s

theorem fifoInv_congr {h : Host} {s t : State} (hs : FifoInv h s)
    (e1 : t.API_KEY = s.API_KEY) (e2 : t.UPDATE_URL = s.UPDATE_URL)
    (e3 : t.old_pulses = s.old_pulses) (e4 : t.current_pulse = s.current_pulse)
    (e5 : t.sealed = s.sealed) (e6 : t.sent = s.sent) (e7 : t.next_pulse = s.next_pulse) :
    FifoInv h t := by
  unfold FifoInv canSend at *
  rw [e1, e2, e3, e4, e5, e6, e7]
  exact hs

theorem sealCurrent_config (s : State) :
    (sealCurrent s).API_KEY = s.API_KEY ∧ (sealCurrent s).UPDATE_URL = s.UPDATE_URL := by
  unfold sealCurrent
  cases s.current_pulse <;> exact ⟨rfl, rfl⟩

theorem sealCurrent_fifo (h : Host) (s : State) (hs : FifoInv h s) :
    FifoInv h (sealCurrent s) := by
  unfold sealCurrent
  cases hc : s.current_pulse with
  | none => exact hs
  | some c =>
    obtain ⟨a1, a2, a3, a4, a5⟩ := hs
    obtain ⟨b1, b2⟩ := a5 c hc
    refine ⟨?_, ?_, ?_, ?_, ?_⟩
    · intro hcan
      have := a1 hcan
      simp only [this, List.append_assoc]
    · intro hcan
      exact a2 hcan
    · simp only [List.map_append, List.map_cons, List.map_nil]
      rw [List.nodup_append]
      refine ⟨a3, List.nodup_singleton _, ?_⟩
      intro x hx hx2
      rw [List.mem_singleton] at hx2
      subst hx2
      exact b2 hx
    · intro p hp
      simp only [List.mem_append, List.mem_singleton] at hp
      rcases hp with hp | hp
      · exact a4 p hp
      · subst hp; exact b1
    · intro c2 hc2
      cases hc2

theorem startUpdate_fifo (h : Host) (s : State) (hs : FifoInv h s) :
    FifoInv h (startUpdate h s) := by
  unfold startUpdate
  split_ifs
  · exact hs
  · exact fifoInv_congr hs rfl rfl rfl rfl rfl rfl rfl
  · have hs2 := sealCurrent_fifo h s hs
    simp only []
    split
    · exact hs2
    · rename_i p rest hq
      obtain ⟨a1, a2, a3, a4, a5⟩ := hs2
      have hcan : canSend h (sealCurrent s)
          = h.canRequest ((sealCurrent s).UPDATE_URL.getD []) ((sealCurrent s).API_KEY.getD []) := rfl
      refine ⟨?_, ?_, a3, a4, a5⟩
      · intro hc
        have hc2 : canSend h (sealCurrent s) = true := hc
        have := a1 hc2
        rw [hcan] at hc2
        simp only [hc2, if_true, this, hq, List.append_assoc, List.singleton_append]
      · intro hc
        have hc2 : canSend h (sealCurrent s) = false := hc
        have := a2 hc2
        rw [hcan] at hc2
        simp only [hc2, this]
        rfl

theorem addXP_of_none (g : Grammar) (n : Nat) (s : State) (hc : s.current_pulse = none) :
    addXP g n s = { s with current_pulse := some ((Pulse.create s.next_pulse s.now).addXP g n),
                           next_pulse := s.next_pulse + 1 } := by
  simp [addXP, getOrCreatePulse, hc]

theorem addXP_of_some (g : Grammar) (n : Nat) (s : State) (c : Pulse)
    (hc : s.current_pulse = some c) :
    addXP g n s = { s with current_pulse := some (c.addXP g n) } := by
  simp [addXP, getOrCreatePulse, hc]

theorem addXP_fifo (h : Host) (g : Grammar) (n : Nat) (s : State) (hs : FifoInv h s) :
    FifoInv h (addXP g n s) := by
  obtain ⟨a1, a2, a3, a4, a5⟩ := hs
  cases hc : s.current_pulse with
  | none =>
    rw [addXP_of_none g n s hc]
    refine ⟨a1, a2, a3, ?_, ?_⟩
    · intro p hp
      exact Nat.lt_succ_of_lt (a4 p hp)
    · intro c hc2
      cases hc2
      refine ⟨Nat.lt_succ_self _, ?_⟩
      intro hmem
      rw [List.mem_map] at hmem
      obtain ⟨p, hp, hpr⟩ := hmem
      have := a4 p hp
      simp only [Pulse.addXP, Pulse.create] at hpr
      omega
  | some c0 =>
    rw [addXP_of_some g n s c0 hc]
    refine ⟨a1, a2, a3, a4, ?_⟩
    intro c hc2
    cases hc2
    exact a5 c0 hc

theorem changeEvent_fifo (h : Host) (e : KeyEvent) (editor : Option Grammar) (s : State)
    (hs : FifoInv h s) : FifoInv h (changeEvent e editor s) := by
  by_cases hacc : e.eventType = js "keyup" ∧ acceptedKeystrokes (e.keystrokes.drop 1) = true
  · cases editor with
    | none => rw [changeEvent_no_editor]; exact hs
    | some g =>
      rw [changeEvent_recorded e g s hacc.1 hacc.2, recordKeystroke_eq]
      exact fifoInv_congr (addXP_fifo h g 1 s hs) rfl rfl rfl rfl rfl rfl rfl
  · rw [changeEvent_of_not_accepted e editor s hacc]
    exact hs

theorem fireTimer_fifo (h : Host) (t : Timer) (s : State) (hs : FifoInv h s) :
    FifoInv h (fireTimer h t s) := by
  unfold fireTimer
  split_ifs
  · exact startUpdate_fifo h _ (fifoInv_congr hs rfl rfl rfl rfl rfl rfl rfl)
  · exact hs

theorem foldl_fireTimer_fifo (h : Host) (l : List Timer) (s : State) (hs : FifoInv h s) :
    FifoInv h (l.foldl (fun acc t => fireTimer h t acc) s) := by
  induction l generalizing s with
  | nil => exact hs
  | cons t l ih => exact ih _ (fireTimer_fifo h t s hs)

theorem tick_fifo (h : Host) (s : State) (hs : FifoInv h s) : FifoInv h (tick h s) := by
  unfold tick fireDue
  exact foldl_fireTimer_fifo h _ _ (fifoInv_congr hs rfl rfl rfl rfl rfl rfl rfl)

theorem runWaiters_fifo (h : Host) (n : Nat) (s : State) (hs : FifoInv h s) :
    FifoInv h (runWaiters h n s) := by
  induction n generalizing s with
  | zero => exact hs
  | succ n ih =>
    simp only [runWaiters]
    exact ih _ (startUpdate_fifo h _ (fifoInv_congr hs rfl rfl rfl rfl rfl rfl rfl))

theorem resolve_fifo (h : Host) (r : Request) (s : State) (hs : FifoInv h s) :
    FifoInv h (resolve h r s) := by
  unfold resolve
  exact runWaiters_fifo h _ _ (fifoInv_congr hs rfl rfl rfl rfl rfl rfl rfl)

theorem requestEvent_fifo (h : Host) (id : Nat) (o : Outcome) (s : State)
    (hs : FifoInv h s) : FifoInv h (requestEvent h id o s) := by
  unfold requestEvent
  split
  · exact hs
  · rename_i r hr
    cases o with
    | response code =>
      simp only [updateStatusBar_eq]
      split_ifs
      · exact resolve_fifo h r _ (fifoInv_congr hs rfl rfl rfl rfl rfl rfl rfl)
      · exact resolve_fifo h r _ (fifoInv_congr hs rfl rfl rfl rfl rfl rfl rfl)
    | timeout =>
      simp only [updateStatusBar_eq]
      exact resolve_fifo h r _ (fifoInv_congr hs rfl rfl rfl rfl rfl rfl rfl)
    | error => exact hs

theorem step_fifo (h : Host) (s : State) (ev : Event) (hs : FifoInv h s) :
    FifoInv h (step h s ev) := by
  cases ev with
  | key e editor => exact changeEvent_fifo h e editor s hs
  | flush => exact startUpdate_fifo h s hs
  | tick => exact tick_fifo h s hs
  | settle id o => exact requestEvent_fifo h id o s hs

theorem run_fifo (h : Host) (events : List Event) (s : State) (hs : FifoInv h s) :
    FifoInv h (run h s events) := by
  unfold run
  induction events generalizing s with
  | nil => exact hs
  | cons ev events ih => exact ih _ (step_fifo h s ev hs)

theorem init_fifo (h : Host) (now : Nat) (apiKey apiUrl : Option JSString) :
    FifoInv h (activate apiKey apiUrl (State.init now)) := by
  refine ⟨?_, ?_, ?_, ?_, ?_⟩
  · intro _; rfl
  · intro _; rfl
  · exact List.nodup_nil
  · intro p hp; cases hp
  · intro c hc; cases hc

theorem sent_initial_segment {h : Host} {s : State} (hs : FifoInv h s) :
    s.sent <+: s.sealed := by
  obtain ⟨a1, a2, -⟩ := hs
  cases hc : canSend h s with
  | true => rw [a1 hc]; exact List.prefix_append _ _
  | false => rw [a2 hc]; exact List.nil_prefix

theorem filter_swap {α : Type} (p q : α → Bool) (l : List α) :
    (l.filter q).filter p = (l.filter p).filter q := by
  rw [List.filter_filter, List.filter_filter]
  exact List.filter_congr (fun x _ => Bool.and_comm _ _)

theorem kind_of_not_debounce (t : Timer) (ht : ¬ t.isDebounce = true) :
    t.isDebounce = false := by
  cases hb : t.isDebounce
  · rfl
  · exact absurd hb ht

theorem sameDebounce_refl (s : State) : SameDebounce s s := ⟨rfl, rfl, rfl, rfl⟩

theorem sameDebounce_trans {s t u : State} (h1 : SameDebounce s t) (h2 : SameDebounce t u) :
    SameDebounce s u :=
  ⟨h2.1.trans h1.1, h2.2.1.trans h1.2.1, h2.2.2.1.trans h1.2.2.1, h2.2.2.2.trans h1.2.2.2⟩

theorem sealCurrent_sameDebounce (s : State) : SameDebounce s (sealCurrent s) := by
  unfold sealCurrent
  cases s.current_pulse <;> exact ⟨rfl, rfl, rfl, rfl⟩

theorem startUpdate_sameDebounce (h : Host) (s : State) : SameDebounce s (startUpdate h s) := by
  unfold startUpdate
  split_ifs
  · exact sameDebounce_refl s
  · exact ⟨rfl, rfl, rfl, rfl⟩
  · have hs := sealCurrent_sameDebounce s
    simp only []
    split
    · exact hs
    · refine sameDebounce_trans hs ⟨?_, rfl, rfl, rfl⟩
      simp [debounceTimers, List.filter_append, Timer.isDebounce]

theorem fireTimer_repeat (h : Host) (t : Timer) (s : State) (ht : t.isDebounce = false) :
    SameDebounce s (fireTimer h t s) := by
  unfold fireTimer
  split_ifs
  · have h1 : SameDebounce s
        { s with timers := s.timers.filter (fun u => u ≠ t), fired := s.fired ++ [(t, s.now)] } := by
      refine ⟨?_, ?_, rfl, rfl⟩
      · show (s.timers.filter (fun u => u ≠ t)).filter Timer.isDebounce
            = s.timers.filter Timer.isDebounce
        rw [filter_swap]
        apply List.filter_eq_self.2
        intro a ha
        have ha2 := (List.mem_filter.1 ha).2
        have : a ≠ t := by
          intro hat
          rw [hat, ht] at ha2
          cases ha2
        simpa using this
      · show (s.fired ++ [(t, s.now)]).filter (fun x => x.1.isDebounce)
            = s.fired.filter (fun x => x.1.isDebounce)
        simp [List.filter_append, ht]
    exact sameDebounce_trans h1 (startUpdate_sameDebounce h _)
  · exact sameDebounce_refl s

theorem foldl_fireTimer_repeat (h : Host) (l : List Timer) (s : State)
    (hl : ∀ t ∈ l, t.isDebounce = false) :
    SameDebounce s (l.foldl (fun acc t => fireTimer h t acc) s) := by
  induction l generalizing s with
  | nil => exact sameDebounce_refl s
  | cons t l ih =>
    exact sameDebounce_trans (fireTimer_repeat h t s (hl t (List.mem_cons_self _ _)))
      (ih _ (fun u hu => hl u (List.mem_cons_of_mem _ hu)))

theorem fireTimer_debounce (h : Host) (x : Timer) (s : State)
    (hx : debounceTimers s = [x]) :
    debounceTimers (fireTimer h x s) = []
      ∧ debounceFired (fireTimer h x s) = debounceFired s ++ [(x, s.now)]
      ∧ (fireTimer h x s).update_timeout = s.update_timeout
      ∧ (fireTimer h x s).now = s.now := by
  have hmem : x ∈ debounceTimers s := by rw [hx]; exact List.mem_singleton_self x
  have hxin : x ∈ s.timers := (List.mem_filter.1 hmem).1
  have hxd : x.isDebounce = true := (List.mem_filter.1 hmem).2
  unfold fireTimer
  rw [if_pos hxin]
  obtain ⟨a1, a2, a3, a4⟩ := startUpdate_sameDebounce h
    { s with timers := s.timers.filter (fun u => u ≠ x), fired := s.fired ++ [(x, s.now)] }
  refine ⟨a1.trans ?_, a2.trans ?_, a3, a4⟩
  · show (s.timers.filter (fun u => u ≠ x)).filter Timer.isDebounce = []
    rw [filter_swap]
    change (debounceTimers s).filter (fun u => u ≠ x) = []
    rw [hx]
    simp
  · show (s.fired ++ [(x, s.now)]).filter (fun y => y.1.isDebounce)
        = s.fired.filter (fun y => y.1.isDebounce) ++ [(x, s.now)]
    simp [List.filter_append, hxd]

theorem foldl_fireTimer_one (h : Host) (x : Timer) (l : List Timer) (s : State)
    (hl : l.filter Timer.isDebounce = [x]) (hx : debounceTimers s = [x]) :
    debounceTimers (l.foldl (fun acc t => fireTimer h t acc) s) = []
      ∧ debounceFired (l.foldl (fun acc t => fireTimer h t acc) s)
          = debounceFired s ++ [(x, s.now)]
      ∧ (l.foldl (fun acc t => fireTimer h t acc) s).update_timeout = s.update_timeout
      ∧ (l.foldl (fun acc t => fireTimer h t acc) s).now = s.now := by
  induction l generalizing s with
  | nil => cases hl
  | cons t l ih =>
    rw [List.foldl_cons]
    by_cases ht : t.isDebounce = true
    · rw [List.filter_cons_of_pos ht] at hl
      have htx : t = x := (List.cons.inj hl).1
      have hrest : l.filter Timer.isDebounce = [] := (List.cons.inj hl).2
      subst htx
      have hall : ∀ u ∈ l, u.isDebounce = false := fun u hu =>
        kind_of_not_debounce u (List.filter_eq_nil_iff.1 hrest u hu)
      obtain ⟨a1, a2, a3, a4⟩ := fireTimer_debounce h t s hx
      obtain ⟨b1, b2, b3, b4⟩ := foldl_fireTimer_repeat h l (fireTimer h t s) hall
      exact ⟨b1.trans a1, b2.trans a2, b3.trans a3, b4.trans a4⟩
    · rw [List.filter_cons_of_neg ht] at hl
      obtain ⟨a1, a2, a3, a4⟩ := fireTimer_repeat h t s (kind_of_not_debounce t ht)
      obtain ⟨b1, b2, b3, b4⟩ := ih (fireTimer h t s) hl (a1.trans hx)
      exact ⟨b1, by rw [b2, a2, a4], b3.trans a3, b4.trans a4⟩

theorem tick_not_due (h : Host) (s : State)
    (hnd : ∀ t ∈ debounceTimers s, s.now + 1 < t.due) :
    debounceTimers (tick h s) = debounceTimers s
      ∧ debounceFired (tick h s) = debounceFired s
      ∧ (tick h s).update_timeout = s.update_timeout
      ∧ (tick h s).now = s.now + 1 := by
  unfold tick fireDue
  refine foldl_fireTimer_repeat h _ { s with now := s.now + 1 } ?_
  intro t ht
  obtain ⟨h1, h2⟩ := List.mem_filter.1 ht
  apply kind_of_not_debounce
  intro hd
  have := hnd t (List.mem_filter.2 ⟨h1, hd⟩)
  simp only [decide_eq_true_eq] at h2
  omega

theorem tick_due (h : Host) (x : Timer) (s : State)
    (hx : debounceTimers s = [x]) (hdue : x.due ≤ s.now + 1) :
    debounceTimers (tick h s) = []
      ∧ debounceFired (tick h s) = debounceFired s ++ [(x, s.now + 1)]
      ∧ (tick h s).update_timeout = s.update_timeout
      ∧ (tick h s).now = s.now + 1 := by
  unfold tick fireDue
  refine foldl_fireTimer_one h x _ { s with now := s.now + 1 } ?_ hx
  show (s.timers.filter (fun t => decide (t.due ≤ s.now + 1))).filter Timer.isDebounce = [x]
  rw [filter_swap]
  change (debounceTimers s).filter (fun t => decide (t.due ≤ s.now + 1)) = [x]
  rw [hx]
  simp [hdue]

theorem advance_succ (h : Host) (d : Nat) (s : State) :
    advance h (d + 1) s = advance h d (tick h s) := rfl

theorem advance_before (h : Host) (d : Nat) (s : State)
    (hnd : ∀ t ∈ debounceTimers s, s.now + d < t.due) :
    debounceTimers (advance h d s) = debounceTimers s
      ∧ debounceFired (advance h d s) = debounceFired s
      ∧ (advance h d s).update_timeout = s.update_timeout
      ∧ (advance h d s).now = s.now + d := by
  induction d generalizing s with
  | zero => exact ⟨rfl, rfl, rfl, rfl⟩
  | succ d ih =>
    rw [advance_succ]
    obtain ⟨a1, a2, a3, a4⟩ := tick_not_due h s (fun t ht => by have := hnd t ht; omega)
    obtain ⟨b1, b2, b3, b4⟩ := ih (tick h s) (fun t ht => by
      rw [a1] at ht
      have := hnd t ht
      omega)
    exact ⟨b1.trans a1, b2.trans a2, b3.trans a3, by rw [b4, a4]; omega⟩

theorem advance_after (h : Host) (x : Timer) (d : Nat) (s : State)
    (hx : debounceTimers s = [x]) (hfut : s.now < x.due) (hd : x.due ≤ s.now + d) :
    debounceTimers (advance h d s) = []
      ∧ debounceFired (advance h d s) = debounceFired s ++ [(x, x.due)] := by
  induction d generalizing s with
  | zero => omega
  | succ d ih =>
    rw [advance_succ]
    by_cases hlt : s.now + 1 < x.due
    · obtain ⟨a1, a2, -, a4⟩ := tick_not_due h s (fun t ht => by
        rw [hx, List.mem_singleton] at ht
        rw [ht]; exact hlt)
      obtain ⟨b1, b2⟩ := ih (tick h s) (a1.trans hx) (by omega) (by omega)
      exact ⟨b1, by rw [b2, a2]⟩
    · have hdue : x.due ≤ s.now + 1 := by omega
      have heq : x.due = s.now + 1 := by omega
      obtain ⟨a1, a2, -, a4⟩ := tick_due h x s hx hdue
      obtain ⟨b1, b2, -, -⟩ := advance_before h d (tick h s) (fun t ht => by
        rw [a1] at ht; cases ht)
      exact ⟨b1.trans a1, by rw [b2, a2, heq]⟩

theorem addXP_env (g : Grammar) (n : Nat) (s : State) :
    (addXP g n s).timers = s.timers
      ∧ (addXP g n s).update_timeout = s.update_timeout
      ∧ (addXP g n s).now = s.now
      ∧ (addXP g n s).fired = s.fired
      ∧ (addXP g n s).next_timer = s.next_timer := by
  cases hc : s.current_pulse with
  | none => rw [addXP_of_none g n s hc]; exact ⟨rfl, rfl, rfl, rfl, rfl⟩
  | some c => rw [addXP_of_some g n s c hc]; exact ⟨rfl, rfl, rfl, rfl, rfl⟩

/-- After a recorded key event exactly one debounce timer is pending: the new
one, due `UPDATE_DELAY` after the event. -/
theorem recordKeystroke_armed (g : Grammar) (s : State) (hinv : DebounceInv s) :
    debounceTimers (recordKeystroke g s)
        = [{ id := s.next_timer, due := s.now + UPDATE_DELAY, kind := .debounce }]
      ∧ (recordKeystroke g s).update_timeout = some s.next_timer
      ∧ (recordKeystroke g s).now = s.now
      ∧ debounceFired (recordKeystroke g s) = debounceFired s := by
  obtain ⟨e1, e2, e3, e4, e5⟩ := addXP_env g 1 s
  rw [recordKeystroke_eq]
  refine ⟨?_, ?_, e3, ?_⟩
  · show List.filter Timer.isDebounce (_ ++ _) = _
    rw [e1, e2, e3, e5, List.filter_append]
    have hold : List.filter Timer.isDebounce (match s.update_timeout with
        | none => s.timers
        | some handle => s.timers.filter (fun t => t.id ≠ handle)) = [] := by
      rw [List.filter_eq_nil_iff]
      intro t ht hd
      cases hto : s.update_timeout with
      | none =>
        rw [hto] at ht
        have := hinv t ht hd
        rw [hto] at this
        cases this
      | some handle =>
        rw [hto] at ht
        obtain ⟨h1, h2⟩ := List.mem_filter.1 ht
        have := hinv t h1 hd
        rw [hto] at this
        simp only [Option.some.injEq] at this
        simp [this] at h2
    rw [hold]
    rfl
  · show some (addXP g 1 s).next_timer = some s.next_timer
    rw [e5]
  · show List.filter _ (addXP g 1 s).fired = _
    rw [e4]
    rfl

theorem debounceInv_of_single (s : State) (x : Timer) (hx : debounceTimers s = [x])
    (hto : s.update_timeout = some x.id) : DebounceInv s := by
  intro t ht hd
  have : t ∈ debounceTimers s := List.mem_filter.2 ⟨ht, hd⟩
  rw [hx, List.mem_singleton] at this
  rw [this]
  exact hto

theorem typeKeys_armed (h : Host) (rest : List (Nat × KeyEvent × Grammar)) (s : State)
    (id : Nat)
    (hx : debounceTimers s = [{ id := id, due := s.now + UPDATE_DELAY, kind := .debounce }])
    (hto : s.update_timeout = some id)
    (hadm : ∀ x ∈ rest, Admits x.2.1)
    (hgap : ∀ x ∈ rest, x.1 < UPDATE_DELAY) :
    ∃ id2,
      debounceTimers (typeKeys h s rest)
          = [{ id := id2, due := (typeKeys h s rest).now + UPDATE_DELAY, kind := .debounce }]
        ∧ (typeKeys h s rest).update_timeout = some id2
        ∧ (typeKeys h s rest).now = s.now + (rest.map (fun x => x.1)).sum
        ∧ debounceFired (typeKeys h s rest) = debounceFired s := by
  induction rest generalizing s id with
  | nil => exact ⟨id, hx, hto, by simp [typeKeys], rfl⟩
  | cons a rest ih =>
    obtain ⟨gap, e, g⟩ := a
    have hg : gap < UPDATE_DELAY := hgap (gap, e, g) (List.mem_cons_self _ _)
    have ha : Admits e := hadm (gap, e, g) (List.mem_cons_self _ _)
    obtain ⟨a1, a2, a3, a4⟩ := advance_before h gap s (fun t ht => by
      rw [hx, List.mem_singleton] at ht
      rw [ht]
      show s.now + gap < s.now + UPDATE_DELAY
      omega)
    have hinv : DebounceInv (advance h gap s) :=
      debounceInv_of_single _ _ (a1.trans hx) (a3.trans hto)
    obtain ⟨b1, b2, b3, b4⟩ := recordKeystroke_armed g (advance h gap s) hinv
    have hce : changeEvent e (some g) (advance h gap s) = recordKeystroke g (advance h gap s) :=
      changeEvent_recorded e g _ ha.1 ((acceptedKeystrokes_iff _).2 ha.2)
    obtain ⟨id2, c1, c2, c3, c4⟩ := ih (recordKeystroke g (advance h gap s))
      (advance h gap s).next_timer (by rw [b1, b3]) b2
      (fun x hx2 => hadm x (List.mem_cons_of_mem _ hx2))
      (fun x hx2 => hgap x (List.mem_cons_of_mem _ hx2))
    refine ⟨id2, ?_, ?_, ?_, ?_⟩
    · simp only [typeKeys, hce]; exact c1
    · simp only [typeKeys, hce]; exact c2
    · simp only [typeKeys, hce, List.map_cons, List.sum_cons]
      rw [c3, b3, a4]; omega
    · simp only [typeKeys, hce]
      rw [c4, b4, a2]

theorem debounceInv_iff (s : State) :
    DebounceInv s ↔ ∀ t ∈ debounceTimers s, s.update_timeout = some t.id := by
  unfold DebounceInv debounceTimers
  constructor
  · intro hs t ht
    exact hs t (List.mem_filter.1 ht).1 (List.mem_filter.1 ht).2
  · intro hs t ht hd
    exact hs t (List.mem_filter.2 ⟨ht, hd⟩)

theorem sameDebounce_inv {s t : State} (hst : SameDebounce s t) (hs : DebounceInv s) :
    DebounceInv t := by
  rw [debounceInv_iff] at *
  intro x hx
  rw [hst.1] at hx
  rw [hst.2.2.1]
  exact hs x hx

theorem runWaiters_sameDebounce (h : Host) (n : Nat) (s : State) :
    SameDebounce s (runWaiters h n s) := by
  induction n generalizing s with
  | zero => exact sameDebounce_refl s
  | succ n ih =>
    simp only [runWaiters]
    have h1 : SameDebounce s { s with update_waiting := false } := ⟨rfl, rfl, rfl, rfl⟩
    exact sameDebounce_trans (sameDebounce_trans h1 (startUpdate_sameDebounce h _)) (ih _)

theorem requestEvent_sameDebounce (h : Host) (id : Nat) (o : Outcome) (s : State) :
    SameDebounce s (requestEvent h id o s) := by
  have hres : ∀ (r : Request) (t : State), SameDebounce s t → SameDebounce s (resolve h r t) := by
    intro r t ht
    unfold resolve
    have h1 : SameDebounce t { t with requests := t.requests.filter (fun q => q.id ≠ r.id),
                                      update_promise := none } := ⟨rfl, rfl, rfl, rfl⟩
    exact sameDebounce_trans (sameDebounce_trans ht h1) (runWaiters_sameDebounce h _ _)
  unfold requestEvent
  split
  · exact sameDebounce_refl s
  · rename_i r hr
    cases o with
    | response code =>
      simp only [updateStatusBar_eq]
      split_ifs
      · exact hres r _ ⟨rfl, rfl, rfl, rfl⟩
      · exact hres r _ ⟨rfl, rfl, rfl, rfl⟩
    | timeout =>
      simp only [updateStatusBar_eq]
      exact hres r _ ⟨rfl, rfl, rfl, rfl⟩
    | error => exact sameDebounce_refl s

theorem fireTimer_debounceInv (h : Host) (t : Timer) (s : State) (hs : DebounceInv s) :
    DebounceInv (fireTimer h t s) := by
  unfold fireTimer
  split_ifs
  · refine sameDebounce_inv (startUpdate_sameDebounce h _) ?_
    intro u hu hd
    exact hs u (List.mem_filter.1 hu).1 hd
  · exact hs

theorem tick_debounceInv (h : Host) (s : State) (hs : DebounceInv s) :
    DebounceInv (tick h s) := by
  have hfold : ∀ (l : List Timer) (t : State), DebounceInv t →
      DebounceInv (l.foldl (fun acc u => fireTimer h u acc) t) := by
    intro l
    induction l with
    | nil => intro t ht; exact ht
    | cons u l ih => intro t ht; exact ih _ (fireTimer_debounceInv h u t ht)
  unfold tick fireDue
  exact hfold _ _ hs

theorem changeEvent_debounceInv (e : KeyEvent) (editor : Option Grammar) (s : State)
    (hs : DebounceInv s) : DebounceInv (changeEvent e editor s) := by
  by_cases hacc : e.eventType = js "keyup" ∧ acceptedKeystrokes (e.keystrokes.drop 1) = true
  · cases editor with
    | none => rw [changeEvent_no_editor]; exact hs
    | some g =>
      rw [changeEvent_recorded e g s hacc.1 hacc.2]
      obtain ⟨b1, b2, -, -⟩ := recordKeystroke_armed g s hs
      exact debounceInv_of_single _ _ b1 b2
  · rw [changeEvent_of_not_accepted e editor s hacc]
    exact hs

/-- The hypothesis of the debounce theorem holds in every state the script can
reach from its initial state. -/
theorem run_debounceInv (h : Host) (now : Nat) (apiKey apiUrl : Option JSString)
    (events : List Event) :
    DebounceInv (run h (activate apiKey apiUrl (State.init now)) events) := by
  have hstep : ∀ (evs : List Event) (s : State), DebounceInv s → DebounceInv (run h s evs) := by
    intro evs
    unfold run
    induction evs with
    | nil => intro s hs; exact hs
    | cons ev evs ih =>
      intro s hs
      apply ih
      cases ev with
      | key e editor => exact changeEvent_debounceInv e editor s hs
      | flush => exact sameDebounce_inv (startUpdate_sameDebounce h s) hs
      | tick => exact tick_debounceInv h s hs
      | settle id o => exact sameDebounce_inv (requestEvent_sameDebounce h id o s) hs
  apply hstep
  intro t ht
  cases ht

theorem admits_keyA : Admits keyA :=
  ⟨by decide, Or.inl ⟨97, by decide⟩⟩

/-! ## The claims -/

/-- Claim C2 (gating).  In every state in which the API key or the update URL is
unset (`null` or the empty string), `startUpdate` returns the state it was given,
however many times it is called: `current_pulse`, `old_pulses`, `update_promise`,
`update_waiting`, the pending timers, the pending requests and the history of
requests sent are all unchanged. -/
theorem startUpdate_gated_noop (h : Host) (s : State) (hg : Unconfigured s) (n : Nat) :
    (startUpdate h)^[n] s = s :=
  Function.iterate_fixed (startUpdate_unconfigured h s hg) n

/-- Claim C3 (event filter).  An event that the filter of the specification does
not admit (in particular every event whose kind is not `keyup`) leaves the state
as it was; and whenever `changeEvent` changes the recorded experience, the event is
admitted by the filter and exactly one unit was added. -/
theorem changeEvent_filter (e : KeyEvent) (editor : Option Grammar) (s : State) :
    (¬ Admits e → changeEvent e editor s = s)
      ∧ (displayTotal (changeEvent e editor s) ≠ displayTotal s →
          Admits e ∧ displayTotal (changeEvent e editor s) = displayTotal s + 1) := by
  have key : ¬ Admits e → changeEvent e editor s = s := by
    intro hn
    apply changeEvent_of_not_accepted
    rintro ⟨h1, h2⟩
    exact hn ⟨h1, (acceptedKeystrokes_iff _).1 h2⟩
  refine ⟨key, fun hne => ?_⟩
  by_cases ha : Admits e
  · refine ⟨ha, ?_⟩
    cases editor with
    | none => exact absurd (by rw [changeEvent_no_editor]) hne
    | some g =>
      obtain ⟨h1, h2⟩ := ha
      rw [changeEvent_recorded e g s h1 ((acceptedKeystrokes_iff _).2 h2),
        displayTotal_congr _ _ (recordKeystroke_pulses g s).1 (recordKeystroke_pulses g s).2,
        displayTotal_addXP]
  · exact absurd (by rw [key ha]) hne

/-- Claim C7 (payload shape).  When `startUpdate` takes the pulse `p` at the head of
the queue, the payload it builds is the payload of the specification: `coded_at` is
the ISO timestamp of the time stored in the pulse when it was sealed, and `xps`
lists, in entry order and with the length of the experience map, one object per
entry with the entry's count and the grammar name, `Null Grammar` being replaced by
`Plain text`.  When the request can be created, it carries this payload and the
body written is its JSON text.  Sealing stores the current time in the pulse. -/
theorem startUpdate_payload (h : Host) (s : State) (p : Pulse) (rest : List Pulse)
    (hcfg : ¬ Unconfigured s)
    (hbranch : s.update_promise = none ∨ s.update_waiting = true)
    (hq : (sealCurrent s).old_pulses = p :: rest) :
    buildData h p = specPayload h p
      ∧ (buildData h p).xps.length = p.xps.length
      ∧ (h.canRequest (s.UPDATE_URL.getD []) (s.API_KEY.getD []) = true →
          ∃ r, (startUpdate h s).requests = s.requests ++ [r]
            ∧ r.pulse = p
            ∧ r.data = specPayload h p
            ∧ r.body = stringify (specPayload h p))
      ∧ (∀ c, s.current_pulse = some c →
          (sealCurrent s).old_pulses = s.old_pulses ++ [{ c with coded_at := some s.now }]) := by
  have hcfg2 : ¬ (s.API_KEY = none ∨ s.API_KEY = some [] ∨ s.UPDATE_URL = none
      ∨ s.UPDATE_URL = some []) := by
    intro hc; apply hcfg; unfold Unconfigured; rw [js_empty]; exact hc
  have hb2 : ¬ (s.update_promise ≠ none ∧ s.update_waiting = false) := by
    rintro ⟨h1, h2⟩
    rcases hbranch with hb | hb
    · exact h1 hb
    · rw [hb] at h2; cases h2
  have hkeep : (sealCurrent s).requests = s.requests
      ∧ (sealCurrent s).UPDATE_URL = s.UPDATE_URL ∧ (sealCurrent s).API_KEY = s.API_KEY := by
    unfold sealCurrent; cases s.current_pulse <;> simp
  refine ⟨buildData_eq_specPayload h p, ?_, ?_, ?_⟩
  · simp [buildData_eq_specPayload, specPayload]
  · intro hreq
    refine ⟨makeRequest h (sealCurrent s) p, ?_, rfl, ?_, ?_⟩
    · unfold startUpdate
      rw [if_neg hcfg2, if_neg hb2]
      simp only [hq, hkeep.1, hkeep.2.1, hkeep.2.2, hreq, if_true]
    · simp [makeRequest, buildData_eq_specPayload]
    · simp [makeRequest, buildData_eq_specPayload]
  · intro c hc
    simp [sealCurrent, hc]

/-- Claim C9 (response handling).  For a response to a pending request, when the
status code is 201 the status bar is given the sum of all experience counts over
the pulses in `old_pulses` and the current pulse, and `total_xps` holds that sum;
for every other status code the status bar is given `ERR <code>!` and no total is
computed. -/
theorem response_report (h : Host) (s : State) (id code : Nat)
    (hpending : ∃ r ∈ s.requests, r.id = id) :
    (code = 201 →
        (requestEvent h id (.response code) s).status_bar_tile
            = s.status_bar_tile.map (fun _ => js "C::S " ++ decimal (displayTotal s))
          ∧ (requestEvent h id (.response code) s).total_xps = some (displayTotal s))
      ∧ (code ≠ 201 →
        (requestEvent h id (.response code) s).status_bar_tile
            = s.status_bar_tile.map (fun _ => js "C::S " ++ (js "ERR " ++ decimal code ++ js "!"))
          ∧ (requestEvent h id (.response code) s).total_xps = s.total_xps) := by
  obtain ⟨r, hr⟩ := find_pending s id hpending
  constructor
  · intro hc
    subst hc
    unfold requestEvent
    simp only [hr, ne_eq, not_true_eq_false, if_false]
    obtain ⟨f1, f2, -⟩ := resolve_frame h r
      (updateStatusBar (some (decimal (computeTotalXps s)))
        { s with total_xps := some (computeTotalXps s) })
    rw [f1, f2, updateStatusBar_tile, updateStatusBar_total, computeTotalXps_eq]
    exact ⟨rfl, rfl⟩
  · intro hc
    unfold requestEvent
    simp only [hr, ne_eq, hc, not_false_eq_true, if_true]
    obtain ⟨f1, f2, -⟩ := resolve_frame h r
      (updateStatusBar (some (js "ERR " ++ decimal code ++ js "!")) s)
    rw [f1, f2, updateStatusBar_tile, updateStatusBar_total]
    exact ⟨rfl, rfl⟩

/-- Witness for C2: the empty API key with one pulse open and one queued. -/
theorem startUpdate_gated_noop_witness :
    Unconfigured gatedDemo ∧ (startUpdate demoHost)^[3] gatedDemo = gatedDemo :=
  ⟨Or.inr (Or.inl (by decide)),
    startUpdate_gated_noop demoHost gatedDemo (Or.inr (Or.inl (by decide))) 3⟩

/-- Witness for C3: releasing `ctrl-x` is not admitted and changes nothing;
releasing `a` changes the recorded experience, by exactly one unit. -/
theorem changeEvent_filter_witness :
    (¬ Admits keyCtrlX ∧ changeEvent keyCtrlX (some javaScript) demoStart = demoStart)
      ∧ (displayTotal (changeEvent keyA (some javaScript) demoStart) ≠ displayTotal demoStart
        ∧ Admits keyA
        ∧ displayTotal (changeEvent keyA (some javaScript) demoStart)
            = displayTotal demoStart + 1) :=
  have hx : ¬ Admits keyCtrlX := fun ha =>
    absurd ((acceptedKeystrokes_iff _).2 ha.2) (by decide)
  ⟨⟨hx, (changeEvent_filter keyCtrlX (some javaScript) demoStart).1 hx⟩,
    ⟨by decide, (changeEvent_filter keyA (some javaScript) demoStart).2 (by decide)⟩⟩

/-- Witness for C7: the payload example of the specification, three units of
JavaScript and one unit under the null grammar. -/
theorem startUpdate_payload_witness :
    ¬ Unconfigured payloadDemo
      ∧ (sealCurrent payloadDemo).old_pulses = [payloadPulse]
      ∧ buildData demoHost payloadPulse = specPayload demoHost payloadPulse
      ∧ (specPayload demoHost payloadPulse).xps
          = [{ language := js "JavaScript", xp := 3 }, { language := js "Plain text", xp := 1 }]
      ∧ ((startUpdate demoHost payloadDemo).requests.map (fun r => r.body))
          = [js "\x7b\"coded_at\":\"1672531200000\",\"xps\":[\x7b\"language\":\"JavaScript\",\"xp\":3\x7d,\x7b\"language\":\"Plain text\",\"xp\":1\x7d]\x7d"] :=
  ⟨by unfold Unconfigured; decide, by decide,
    (startUpdate_payload demoHost payloadDemo payloadPulse []
      (by unfold Unconfigured; decide) (Or.inl (by decide)) (by decide)).1,
    by decide, by decide⟩

/-- Witness for C9: the request in flight in `sentDemo` is answered. -/
theorem response_report_witness :
    (∃ r ∈ sentDemo.requests, r.id = 0)
      ∧ (requestEvent demoHost 0 (.response 201) sentDemo).status_bar_tile = some (js "C::S 0")
      ∧ (requestEvent demoHost 0 (.response 500) sentDemo).status_bar_tile
          = some (js "C::S ERR 500!") :=
  have hp : ∃ r ∈ sentDemo.requests, r.id = 0 := by decide
  ⟨hp,
    ((response_report demoHost sentDemo 0 201 hp).1 rfl).1.trans (by decide),
    ((response_report demoHost sentDemo 0 500 hp).2 (by decide)).1.trans (by decide)⟩

/-- Counterexample to C4 as stated: one key is released and `startUpdate` sends
the pulse; the pulse has already left `old_pulses` while its request is in flight,
and after a response with status 500 it is not in `old_pulses` either. -/
theorem failed_delivery_not_held :
    sentDemo.sent = [{ ref := 0, startedAt := 0, coded_at := some 0, xps := [(javaScript, 1)] }]
      ∧ sentDemo.requests.length = 1
      ∧ sentDemo.old_pulses = []
      ∧ (requestEvent demoHost 0 (.response 500) sentDemo).old_pulses = []
      ∧ (requestEvent demoHost 0 .timeout sentDemo).old_pulses = [] := by
  decide

/-- Claim C4, amended.  The pulse `startUpdate` takes for delivery leaves
`old_pulses` when it is taken, before any outcome of its request, and no outcome
of a request (status 201, another status, a timeout, a transport error) puts a
pulse back: every pulse queued after the outcome was queued before it or is the
current pulse, sealed by the re-run. -/
theorem startUpdate_takes_pulse (h : Host) (s : State) (p : Pulse) (rest : List Pulse)
    (hcfg : ¬ Unconfigured s)
    (hbranch : s.update_promise = none ∨ s.update_waiting = true)
    (hq : (sealCurrent s).old_pulses = p :: rest) :
    (startUpdate h s).old_pulses = rest
      ∧ ∀ (t : State) (id : Nat) (o : Outcome), ∀ q ∈ (requestEvent h id o t).old_pulses,
          q ∈ t.old_pulses ∨ ∃ c, t.current_pulse = some c ∧ q = { c with coded_at := some t.now } := by
  have hcfg2 : ¬ (s.API_KEY = none ∨ s.API_KEY = some [] ∨ s.UPDATE_URL = none
      ∨ s.UPDATE_URL = some []) := by
    intro hc; apply hcfg; unfold Unconfigured; rw [js_empty]; exact hc
  have hb2 : ¬ (s.update_promise ≠ none ∧ s.update_waiting = false) := by
    rintro ⟨h1, h2⟩
    rcases hbranch with hb | hb
    · exact h1 hb
    · rw [hb] at h2; cases h2
  constructor
  · unfold startUpdate
    rw [if_neg hcfg2, if_neg hb2]
    simp only [hq]
  · intro t id o q hq2
    exact (requestEvent_noRequeue h id o t).2.2 q hq2

/-- Witness for C4 amended: the open pulse of `payloadDemo` is taken. -/
theorem startUpdate_takes_pulse_witness :
    ¬ Unconfigured payloadDemo
      ∧ (startUpdate demoHost payloadDemo).old_pulses = []
      ∧ (startUpdate demoHost payloadDemo).sent.length = 1 :=
  ⟨by unfold Unconfigured; decide,
    (startUpdate_takes_pulse demoHost payloadDemo payloadPulse []
      (by unfold Unconfigured; decide) (Or.inl (by decide)) (by decide)).1,
    by decide⟩

/-- Claim C5 at the failing input: a request is in flight and reports a transport
error.  No listener is attached for it, so nothing is written to the status bar,
the promise is not resolved and `update_promise` still holds it; a timeout of the
same request does resolve it. -/
theorem transport_error_not_settled :
    sentDemo.update_promise = some 0
      ∧ requestEvent demoHost 0 .error sentDemo = sentDemo
      ∧ (requestEvent demoHost 0 .error sentDemo).update_promise = some 0
      ∧ (requestEvent demoHost 0 .error sentDemo).status_bar_tile = some (js "C::S 1")
      ∧ (requestEvent demoHost 0 .timeout sentDemo).update_promise = none
      ∧ (requestEvent demoHost 0 .timeout sentDemo).status_bar_tile = some (js "C::S X_X") := by
  decide

/-- Claim C1 at the failing input: a key is released and `startUpdate` starts a
request; while it is in flight a second key is released and `startUpdate` is
called twice.  The first of these calls sets `update_waiting`; the second finds
`update_waiting` set, falls into the sending branch and starts a second request
while the first is still outstanding. -/
theorem second_request_while_in_flight :
    (run demoHost demoStart [.key keyA (some javaScript), .flush]).requests.length = 1
      ∧ (run demoHost demoStart [.key keyA (some javaScript), .flush,
          .key keyA (some javaScript), .flush]).requests.length = 1
      ∧ (run demoHost demoStart [.key keyA (some javaScript), .flush,
          .key keyA (some javaScript), .flush]).update_waiting = true
      ∧ ((run demoHost demoStart [.key keyA (some javaScript), .flush,
          .key keyA (some javaScript), .flush, .flush]).requests.map (fun r => r.id)) = [0, 1] := by
  decide

/-- Claim C10 at the failing input: the grammar name `Français` has one letter
outside ASCII.  The `Content-Length` header is the number of UTF-16 code units of
the JSON text, 55, while the body written is 56 bytes long. -/
theorem content_length_counts_code_units :
    ((startUpdate demoHost accentDemo).requests.map
        (fun r => (r.contentLength, r.body.length, utf8ByteLength r.body))) = [(55, 55, 56)] := by
  decide

/-- Claim C6 (first-in first-out delivery).  After every sequence of key events,
`startUpdate` calls, clock ticks (with the timers they fire) and request outcomes,
from the initial state under any configuration: the pulses handed to the network,
in the order their requests were started, are a prefix of the pulses in the order
they were sealed, and no pulse object is among them twice. -/
theorem fifo_delivery (h : Host) (now : Nat) (apiKey apiUrl : Option JSString)
    (events : List Event) :
    (run h (activate apiKey apiUrl (State.init now)) events).sent
        <+: (run h (activate apiKey apiUrl (State.init now)) events).sealed
      ∧ ((run h (activate apiKey apiUrl (State.init now)) events).sent.map Pulse.ref).Nodup := by
  have hs := run_fifo h events _ (init_fifo h now apiKey apiUrl)
  refine ⟨sent_initial_segment hs, ?_⟩
  exact List.Nodup.sublist ((sent_initial_segment hs).sublist.map Pulse.ref) hs.2.2.1

/-- Counterexample to C8 as stated: releasing `a` is admitted by the filter, but
with no active editor `changeEvent` returns before its timer code.  From the start
no debounce timer is pending after the event; and when it follows a recorded key
by 5 ms, the timer of that key stays pending, due 10000 ms after the first event
and not after the last. -/
theorem admitted_without_editor_no_timer :
    Admits keyA
      ∧ debounceTimers (changeEvent keyA none demoStart) = []
      ∧ (advance demoHost 5 (changeEvent keyA (some javaScript) demoStart)).now = 5
      ∧ debounceTimers (changeEvent keyA none
            (advance demoHost 5 (changeEvent keyA (some javaScript) demoStart)))
          = [{ id := 0, due := 10000, kind := .debounce }] :=
  ⟨admits_keyA, by decide, by decide, by decide⟩

/-- Claim C8 (debounce), amended to admitted events that arrive while an editor is
active.  Take a state in which the only pending debounce timer, if any, is the one
held in `update_timeout`, and a burst of one or more admitted key events with an
active editor, each arriving less than `UPDATE_DELAY` = 10000 ms after the previous
one.  After the burst exactly one debounce timer is pending, due 10000 ms after the
last event; no debounce timer fired during the burst (each event cancelled the one
pending); during the next 10000 ms it does not fire, and once 10000 ms have passed
it has fired exactly once, at 10000 ms after the last event, calling `startUpdate`,
and no debounce timer is pending any more.  An event that arrives with no active
editor leaves the state, timers included, as it was. -/
theorem debounce_burst (h : Host) (s : State) (e0 : KeyEvent) (g0 : Grammar)
    (rest : List (Nat × KeyEvent × Grammar))
    (hinv : DebounceInv s) (h0 : Admits e0)
    (hadm : ∀ x ∈ rest, Admits x.2.1) (hgap : ∀ x ∈ rest, x.1 < UPDATE_DELAY) :
    (∃ id,
      (typeKeys h (changeEvent e0 (some g0) s) rest).now = s.now + (rest.map (fun x => x.1)).sum
        ∧ debounceTimers (typeKeys h (changeEvent e0 (some g0) s) rest)
            = [{ id := id, due := s.now + (rest.map (fun x => x.1)).sum + UPDATE_DELAY,
                 kind := .debounce }]
        ∧ (typeKeys h (changeEvent e0 (some g0) s) rest).update_timeout = some id
        ∧ debounceFired (typeKeys h (changeEvent e0 (some g0) s) rest) = debounceFired s
        ∧ (∀ d, d < UPDATE_DELAY →
            debounceFired (advance h d (typeKeys h (changeEvent e0 (some g0) s) rest))
                = debounceFired s
              ∧ debounceTimers (advance h d (typeKeys h (changeEvent e0 (some g0) s) rest))
                = [{ id := id, due := s.now + (rest.map (fun x => x.1)).sum + UPDATE_DELAY,
                     kind := .debounce }])
        ∧ (∀ d, UPDATE_DELAY ≤ d →
            debounceFired (advance h d (typeKeys h (changeEvent e0 (some g0) s) rest))
                = debounceFired s ++
                  [({ id := id, due := s.now + (rest.map (fun x => x.1)).sum + UPDATE_DELAY,
                      kind := .debounce },
                    s.now + (rest.map (fun x => x.1)).sum + UPDATE_DELAY)]
              ∧ debounceTimers (advance h d (typeKeys h (changeEvent e0 (some g0) s) rest))
                = []))
      ∧ ∀ (e : KeyEvent) (t : State), changeEvent e none t = t := by
  refine ⟨?_, changeEvent_no_editor⟩
  have hce : changeEvent e0 (some g0) s = recordKeystroke g0 s :=
    changeEvent_recorded e0 g0 s h0.1 ((acceptedKeystrokes_iff _).2 h0.2)
  obtain ⟨b1, b2, b3, b4⟩ := recordKeystroke_armed g0 s hinv
  rw [hce]
  obtain ⟨id, c1, c2, c3, c4⟩ := typeKeys_armed h rest (recordKeystroke g0 s) s.next_timer
    (by rw [b1, b3]) b2 hadm hgap
  rw [b3] at c3
  rw [c3] at c1
  rw [b4] at c4
  refine ⟨id, c3, c1, c2, c4, ?_, ?_⟩
  · intro d hd
    obtain ⟨a1, a2, -, -⟩ := advance_before h d (typeKeys h (recordKeystroke g0 s) rest)
      (fun t ht => by
        rw [c1, List.mem_singleton] at ht
        rw [ht, c3]
        show s.now + (rest.map (fun x => x.1)).sum + d
          < s.now + (rest.map (fun x => x.1)).sum + UPDATE_DELAY
        omega)
    exact ⟨a2.trans c4, a1.trans c1⟩
  · intro d hd
    obtain ⟨a1, a2⟩ := advance_after h _ d (typeKeys h (recordKeystroke g0 s) rest) c1
      (by
        rw [c3]
        show s.now + (rest.map (fun x => x.1)).sum
          < s.now + (rest.map (fun x => x.1)).sum + UPDATE_DELAY
        unfold UPDATE_DELAY
        omega)
      (by
        rw [c3]
        show s.now + (rest.map (fun x => x.1)).sum + UPDATE_DELAY
          ≤ s.now + (rest.map (fun x => x.1)).sum + d
        omega)
    exact ⟨by rw [a2, c4], a1⟩

/-- Witness for C8 amended: three releases of `a` from the start of the examples,
the second 3000 ms and the third 9999 ms after the one before. -/
theorem debounce_burst_witness :
    DebounceInv demoStart ∧ (∀ x ∈ demoBurst, x.1 < UPDATE_DELAY)
      ∧ ∃ id,
        debounceTimers (typeKeys demoHost (changeEvent keyA (some javaScript) demoStart) demoBurst)
            = [{ id := id, due := 22999, kind := .debounce }]
          ∧ debounceFired (advance demoHost 10000
              (typeKeys demoHost (changeEvent keyA (some javaScript) demoStart) demoBurst))
            = [({ id := id, due := 22999, kind := .debounce }, 22999)] :=
  have hinv : DebounceInv demoStart := by unfold DebounceInv; decide
  have hgap : ∀ x ∈ demoBurst, x.1 < UPDATE_DELAY := by decide
  have hadm : ∀ x ∈ demoBurst, Admits x.2.1 := by
    intro x hx
    simp only [demoBurst, List.mem_cons, List.mem_singleton, List.not_mem_nil, or_false] at hx
    rcases hx with rfl | rfl <;> exact admits_keyA
  ⟨hinv, hgap,
    (debounce_burst demoHost demoStart keyA javaScript demoBurst hinv admits_keyA hadm hgap).1.imp
      (fun _ hres => ⟨hres.2.1, (hres.2.2.2.2.2 10000 (Nat.le_refl _)).1⟩)⟩

end CodeStats
